import Mathlib

/-!
Verification of the mkslides terminal slide viewer (src/main.rs, src/slide.rs).

The development shallowly embeds the core of the program:
  * the document splitter (`mkslides`, slide.rs lines 161-163),
  * the tree-to-blocks converter (`mkslides`, slide.rs lines 165-251),
  * the slide collection and its cursor (`Slides`, slide.rs lines 138-155),
  * the paragraph arm of `SlideItem::render` (slide.rs lines 48-69),
  * the error-propagation skeleton of `main` (main.rs lines 16-24).

Rust strings are modelled as Lean `String` / `List Char`; `usize` as `Nat`
(Rust's `saturating_sub` is Lean's truncated `Nat` subtraction, and a `usize`
subtraction that would underflow — a panic under checked arithmetic — is
modelled by `Option`); `as u16` casts wrap modulo 65536.  Rust's
`str::trim` trims Unicode whitespace; inputs here are ASCII, where it agrees
with `Char.isWhitespace`.
-/

namespace Mkslides

/-- The display-block type, from `enum SlideItem` in slide.rs. -/
inductive SlideItem where
  | Heading (text : String)
  | Paragraph (text : String)
  | Bullets (items : List String)
  | Code (text : String)
  | QR (text : String)
deriving DecidableEq, Inhabited

/-- The comrak node kinds the converter in `mkslides` distinguishes.  `Heading`
and `List` carry data the converter ignores (matched with `_` in the source),
so it is omitted here; every node kind that falls into the source's catch-all
`_ => {}` arm other than `document` and `paragraph` is collapsed into
`other`. -/
inductive NodeValue where
  | document
  | list
  | heading
  | codeBlock (info : String) (literal : String)
  | item
  | code (literal : String)
  | text (s : String)
  | paragraph
  | other
deriving DecidableEq

/-- A parsed document tree node (comrak's `AstNode`: a value plus children). -/
inductive Node where
  | node (value : NodeValue) (children : List Node)

/-- One traversal event, from comrak's `arena_tree::NodeEdge`.  The converter
only reads the node value on `Start` and ignores which node an `End` belongs
to, so `End` carries no payload here. -/
inductive NodeEdge where
  | Start (v : NodeValue)
  | End
deriving DecidableEq

mutual

/-- Depth-first traversal emitting a `Start` edge on entering a node and an
`End` edge on leaving it, exactly comrak's `Node::traverse` event order. -/
def traverse : Node → List NodeEdge
  | .node v cs => NodeEdge.Start v :: traverseList cs ++ [NodeEdge.End]

/-- Traversal of a forest of sibling subtrees, left to right. -/
def traverseList : List Node → List NodeEdge
  | [] => []
  | n :: ns => traverse n ++ traverseList ns

end

/-- Apply `f` to the last element of a list, if any: Rust's
`last_mut().map(...)` in-place update. -/
def modifyLast {α : Type} (f : α → α) : List α → List α
  | [] => []
  | [x] => [f x]
  | x :: y :: xs => x :: modifyLast f (y :: xs)

/-- `'\x60'`-wrapping applied to inline code before it is folded into a block:
`psrc.push('\x60'); psrc.push_str(src); psrc.push('\x60')` in slide.rs. -/
def backtickWrap (s : String) : String := "`" ++ s ++ "`"

/-- Fold an already-formatted inline fragment into a block, as the shared body
of the `NodeValue::Code` / `NodeValue::Text` arms of `mkslides`: append to an
open `Heading`/`Paragraph`'s text or to the last item of an open `Bullets`
list (`bullets.last_mut().map(...)`: a no-op when the list has no item);
any other block kind is left unchanged (the source's `_ => {}`). -/
def appendInline (src : String) : SlideItem → SlideItem
  | .Heading t => .Heading (t ++ src)
  | .Paragraph t => .Paragraph (t ++ src)
  | .Bullets ls => .Bullets (modifyLast (fun b => b ++ src) ls)
  | it => it

/-- The `NodeValue::Item` arm: append an empty item if the most recent block
is a `Bullets`, otherwise leave the block untouched. -/
def itemAppend : SlideItem → SlideItem
  | .Bullets ls => .Bullets (ls ++ [""])
  | it => it

/-- Whitespace-trim on a character list, both ends: Rust's `str::trim`
(restricted to ASCII whitespace). -/
def trimWsL (l : List Char) : List Char :=
  ((l.dropWhile Char.isWhitespace).reverse.dropWhile Char.isWhitespace).reverse

/-- Rust's `str::trim` on `String`. -/
def rustTrim (s : String) : String := String.mk (trimWsL s.toList)

/-- The converter's per-event transition: the body of the
`node.traverse().for_each(|node| ...)` closure in `mkslides`
(slide.rs lines 168-246).  The state is the growing block list `items`
together with the `new` flag. -/
def step (st : List SlideItem × Bool) (e : NodeEdge) : List SlideItem × Bool :=
  match e with
  | .End => (st.1, true)
  | .Start v =>
    match v with
    | .list => (st.1 ++ [SlideItem.Bullets []], false)
    | .heading => (st.1 ++ [SlideItem.Heading ""], false)
    | .codeBlock info lit =>
        (st.1 ++ [if info = "qrcode" then SlideItem.QR (rustTrim lit)
                  else SlideItem.Code lit], false)
    | .item => (modifyLast itemAppend st.1, false)
    | .code lit =>
        let items := if st.2 then st.1 ++ [SlideItem.Paragraph ""] else st.1
        (modifyLast (appendInline (backtickWrap lit)) items, false)
    | .text s =>
        let items := if st.2 then st.1 ++ [SlideItem.Paragraph ""] else st.1
        (modifyLast (appendInline s) items, false)
    | _ => st

/-- Convert one section's parsed tree to its block sequence: traverse and fold
`step` from the initial state (`items = vec![]`, `new = true`). -/
def mkitems (n : Node) : List SlideItem :=
  ((traverse n).foldl step ([], true)).1

/-- Prepend a character onto the first piece of a non-empty piece list. -/
def consHead (c : Char) : List (List Char) → List (List Char)
  | [] => [[c]]
  | p :: ps => (c :: p) :: ps

/-- Rust's `str::split("---")` on a character list: break at every leftmost,
non-overlapping occurrence of the three-character substring `---`, keeping
empty pieces.  This is slide.rs line 162's `md_slides.split("---")`. -/
def splitOnSep : List Char → List (List Char)
  | [] => [[]]
  | [c] => consHead c (splitOnSep [])
  | [c, d] => consHead c (splitOnSep [d])
  | c :: d :: e :: rest =>
      if c = '-' ∧ d = '-' ∧ e = '-' then [] :: splitOnSep rest
      else consHead c (splitOnSep (d :: e :: rest))

/-- Hyphen-trim on a character list, both ends: Rust's `trim_matches('-')`. -/
def trimHyphensL (l : List Char) : List Char :=
  ((l.dropWhile (fun c => c = '-')).reverse.dropWhile (fun c => c = '-')).reverse

/-- Per-piece cleanup from slide.rs line 163: `x.trim_matches('-').trim()`. -/
def sectionTrim (l : List Char) : List Char := trimWsL (trimHyphensL l)

/-- The document splitter on character lists: split on `---`, then trim each
piece (slide.rs lines 161-163). -/
def splitSectionsL (md : List Char) : List (List Char) :=
  (splitOnSep md).map sectionTrim

/-- The document splitter on `String`. -/
def splitSections (md : String) : List String :=
  (splitSectionsL md.toList).map String.mk

/-- One slide: title plus block sequence (`struct Slide` in slide.rs). -/
structure Slide where
  title : String
  items : List SlideItem
deriving DecidableEq

/-- The slide collection (`struct Slides` in slide.rs). -/
structure Slides where
  title : String
  slides : List Slide
  current_idx : Nat
deriving DecidableEq

/-- `Slides::current`: `self.slides.get(self.current_idx)`. -/
def Slides.current (s : Slides) : Option Slide :=
  s.slides.get? s.current_idx

/-- `Slides::next`: `self.current_idx = (self.current_idx + 1).min(self.slides.len() - 1)`.
When the collection is empty, `len - 1` underflows on `usize` (a panic under
checked arithmetic), modelled by `none`. -/
def Slides.next (s : Slides) : Option Slides :=
  if s.slides.length = 0 then none
  else some { s with current_idx := min (s.current_idx + 1) (s.slides.length - 1) }

/-- `Slides::prev`: `self.current_idx = self.current_idx.saturating_sub(1)`
(truncated `Nat` subtraction). -/
def Slides.prev (s : Slides) : Slides :=
  { s with current_idx := s.current_idx - 1 }

/-- A navigation command: the `h` (prev) / `l` (next) keys handled in `run`
(main.rs lines 45-50). -/
inductive NavOp where
  | next
  | prev
deriving DecidableEq

/-- Apply one navigation command; `next` is fallible on the empty collection. -/
def navApply (s : Slides) : NavOp → Option Slides
  | .next => s.next
  | .prev => some s.prev

/-- Apply a finite sequence of navigation commands in order. -/
def applyOps (s : Slides) : List NavOp → Option Slides
  | [] => some s
  | op :: ops =>
    match navApply s op with
    | none => none
    | some t => applyOps t ops

/-- A terminal rectangle (ratatui's `Rect`), fields in character cells; every
field is a `u16` in the source, represented as a `Nat`. -/
structure Rect where
  x : Nat
  y : Nat
  width : Nat
  height : Nat
deriving DecidableEq

/-- Lengths of the source lines of a string: Rust's
`src.lines().map(|x| x.len())`.  Pieces are produced by `splitOnNlPieces`
below via `rustLines`; `\r\n` endings are not modelled (inputs are `\n`
separated). -/
def splitOnNlPieces : List Char → List (List Char)
  | [] => [[]]
  | c :: rest =>
    if c = '\n' then [] :: splitOnNlPieces rest
    else consHead c (splitOnNlPieces rest)

/-- Rust's `str::lines`: split on `'\n'`, a trailing newline producing no
final empty line, and the empty string having no lines. -/
def rustLines (s : String) : List (List Char) :=
  if s.toList = [] then []
  else
    let ps := splitOnNlPieces s.toList
    if ps.getLast? = some [] then ps.dropLast else ps

/-- `max_len` in the `SlideItem::Paragraph` arm of `render`:
`lines.clone().max().unwrap_or(0)` over the source line lengths. -/
def paraMaxLen (s : String) : Nat :=
  ((rustLines s).map List.length).foldl Nat.max 0

/-- `lines` in the `SlideItem::Paragraph` arm of `render`: `lines.count()`. -/
def paraLineCount (s : String) : Nat :=
  ((rustLines s).map List.length).length

/-- The `SlideItem::Paragraph` arm of `SlideItem::render` (slide.rs lines
48-69): returns the rectangle handed to `frame.render_widget` and the
returned next vertical offset `lines as u16 + 2 + rect.y`.  The `as u16`
casts and `u16` additions wrap modulo 65536 (the debug build would panic on
the additions instead; the claims stay within `u16` range). -/
def paragraphRender (src : String) (rect : Rect) : Rect × Nat :=
  let max_len := paraMaxLen src
  let lineCount := paraLineCount src
  let max_width := 80
  let height := max_len / max_width + 2
  let width := if height = 1 then max_len else max_width
  ({ rect with width := width % 65536, height := height % 65536 },
   (lineCount % 65536 + 2 + rect.y) % 65536)

/-- Outcome of one program run: whether `main` returned `Ok` and whether
`restore_terminal` was reached. -/
structure ExitOutcome where
  cleanExit : Bool
  terminalRestored : Bool
deriving DecidableEq

/-- The `?`-chain of `main` (main.rs lines 16-24), after `setup_terminal()`
has been entered: `let mut terminal = setup_terminal()?;
run(mkslides(mdfile)?, &mut terminal)?; restore_terminal(&mut terminal)?;`.
Each `Bool` records whether the corresponding call returned `Ok`; an `Err`
propagates through `?`, skipping everything after it, `restore_terminal`
included. -/
def mainFlow (setupOk mkslidesOk runOk : Bool) : ExitOutcome :=
  if !setupOk then ⟨false, false⟩
  else if !mkslidesOk then ⟨false, false⟩
  else if !runOk then ⟨false, false⟩
  else ⟨true, true⟩

/-- Whether the first action of `run` (main.rs lines 40-43) succeeds: the
loop body starts with `slides.current().context("slides current failes")?`,
which returns `Err` exactly when `current()` is `None`. -/
def runFirstStep (s : Slides) : Bool :=
  s.current.isSome

/-- Whether the most recently pushed block is a `Bullets` list. -/
def lastIsBullets (items : List SlideItem) : Bool :=
  match items.getLast? with
  | some (SlideItem.Bullets _) => true
  | _ => false

/-- Whether a navigation state is in bounds: the wrapped `Slides` exists and
its cursor is strictly below the slide count. -/
def cursorInBounds : Option Slides → Bool
  | none => false
  | some u => decide (u.current_idx < u.slides.length)

/-- The end-to-end example document from the specification. -/
def exampleDoc : String := "# Title\n\nSome `code` text\n---\n- a\n- b"

/-- Modelled from the spec: the parse tree the external comrak parser (a
black-box collaborator, not part of this repository) produces for the first
section `"# Title\n\nSome `code` text"` — a level-1 heading containing the
inline text `Title`, then a paragraph containing the inline text `Some `,
the inline code `code`, and the inline text ` text`, per the spec's
conventional block/inline markup description. -/
def exampleTree1 : Node :=
  .node .document [
    .node .heading [.node (.text "Title") []],
    .node .paragraph [
      .node (.text "Some ") [],
      .node (.code "code") [],
      .node (.text " text") []]]

/-- Modelled from the spec: the parse tree the external comrak parser
produces for the second section `"- a\n- b"` — one unordered list with two
items, each holding a paragraph with its inline text. -/
def exampleTree2 : Node :=
  .node .document [
    .node .list [
      .node .item [.node .paragraph [.node (.text "a") []]],
      .node .item [.node .paragraph [.node (.text "b") []]]]]

/-! ## Helper lemmas -/

/-- Splitting a list that starts with the separator drops it and starts a
fresh piece. -/
theorem splitOnSep_sep (l : List Char) :
    splitOnSep ('-' :: '-' :: '-' :: l) = [] :: splitOnSep l := by
  simp [splitOnSep]

/-- A character other than `-` is prepended onto the current piece. -/
theorem splitOnSep_cons (c : Char) (l : List Char) (hc : c ≠ '-') :
    splitOnSep (c :: l) = consHead c (splitOnSep l) := by
  match l with
  | [] => rfl
  | [d] => rfl
  | d :: e :: r => simp [splitOnSep, hc]

/-- `str::split("---")` breaks at a separator occurrence anywhere: if `a` is
hyphen-free, the text `a ++ "---" ++ b` splits into `a` followed by the
pieces of `b`. -/
theorem splitOnSep_append (a b : List Char) (h : '-' ∉ a) :
    splitOnSep (a ++ '-' :: '-' :: '-' :: b) = a :: splitOnSep b := by
  induction a with
  | nil => simpa using splitOnSep_sep b
  | cons c a ih =>
      simp only [List.mem_cons, not_or] at h
      have hc : c ≠ '-' := Ne.symm h.1
      rw [List.cons_append, splitOnSep_cons c _ hc, ih h.2]
      rfl

/-- Updating the last element of `xs ++ [x]` updates exactly `x`. -/
theorem modifyLast_append_singleton {α : Type} (f : α → α) (xs : List α) (x : α) :
    modifyLast f (xs ++ [x]) = xs ++ [f x] := by
  induction xs with
  | nil => rfl
  | cons y ys ih =>
      cases ys with
      | nil => rfl
      | cons z zs => simpa [modifyLast] using ih

/-- `modifyLast` with a function that fixes every non-`Bullets` block is the
identity when the last block is not a `Bullets`. -/
theorem modifyLast_itemAppend_eq (items : List SlideItem)
    (h : lastIsBullets items = false) :
    modifyLast itemAppend items = items := by
  induction items with
  | nil => rfl
  | cons x xs ih =>
      cases xs with
      | nil => cases x <;> simp_all [lastIsBullets, modifyLast, itemAppend]
      | cons y ys =>
          have h2 : lastIsBullets (y :: ys) = false := by
            simpa [lastIsBullets, List.getLast?_cons_cons] using h
          simpa [modifyLast] using ih h2

/-! ## Claim C1 -/

/-- C1, refuted: on the example document's first section the converter does
not produce a single `Paragraph` holding `Some ` ++ backtick-wrapped
`code` ++ ` text`: after each inline fragment's end-of-node event the `new`
flag is reset, so every following inline fragment opens a fresh
`Paragraph`. -/
theorem end_to_end_single_paragraph_refuted :
    mkitems exampleTree1 ≠
      [SlideItem.Heading "Title", SlideItem.Paragraph "Some `code` text"] := by
  decide

/-- C1 (amended): the example document splits into exactly the two expected
sections; section 1 converts to a `Heading` `Title` followed by three
`Paragraph` blocks `Some `, backtick-wrapped `code`, and ` text` (one per
inline fragment); section 2 converts to a single `BulletList` with items
`a` and `b`. -/
theorem end_to_end_example :
    splitSections exampleDoc = ["# Title\n\nSome `code` text", "- a\n- b"]
  ∧ mkitems exampleTree1 =
      [SlideItem.Heading "Title", SlideItem.Paragraph "Some ",
       SlideItem.Paragraph "`code`", SlideItem.Paragraph " text"]
  ∧ mkitems exampleTree2 = [SlideItem.Bullets ["a", "b"]] := by
  refine ⟨by decide, by decide, by decide⟩

/-! ## Claim C2 -/

/-- C2, refuted: the splitter also splits on a `---` occurring inside a line:
`"a---b"` contains no line consisting solely of hyphens, yet it is split
into two sections instead of being left as the single section `"a---b"`. -/
theorem split_inside_line_refutes_standalone_rule :
    splitSections "a---b" = ["a", "b"]
  ∧ splitSections "a---b" ≠ ["a---b"] := by
  refine ⟨by decide, by decide⟩

/-- C2 (amended): the splitter splits the raw text on every occurrence of
the substring `---` — standalone line or not — and trims leading/trailing
hyphens and surrounding whitespace from each piece, preserving order: for
any hyphen-free prefix `a` and arbitrary rest `b`, splitting
`a ++ "---" ++ b` yields the trimmed `a` followed by the sections of `b`. -/
theorem split_on_every_separator_occurrence (a b : List Char) (h : '-' ∉ a) :
    splitSectionsL (a ++ '-' :: '-' :: '-' :: b) =
      sectionTrim a :: splitSectionsL b := by
  unfold splitSectionsL
  rw [splitOnSep_append a b h]
  rfl

/-- Witness for `split_on_every_separator_occurrence` at the concrete text
`"x\n---\n- y"`, whose prefix `"x\n"` is hyphen-free. -/
theorem split_on_every_separator_occurrence_witness :
    splitSectionsL ("x\n".toList ++ '-' :: '-' :: '-' :: "\n- y".toList) =
      sectionTrim "x\n".toList :: splitSectionsL "\n- y".toList :=
  split_on_every_separator_occurrence "x\n".toList "\n- y".toList (by decide)

/-! ## Claim C5 -/

/-- C5: processing a fenced code block pushes a `QR` block with the
whitespace-trimmed literal exactly when the info tag is the string
`qrcode`, and otherwise pushes a `Code` block with the literal unmodified;
the two outcomes are mutually exclusive. -/
theorem codeblock_qr_dispatch (items : List SlideItem) (new : Bool)
    (info lit : String) :
    (info = "qrcode" →
      step (items, new) (NodeEdge.Start (NodeValue.codeBlock info lit)) =
        (items ++ [SlideItem.QR (rustTrim lit)], false))
  ∧ (info ≠ "qrcode" →
      step (items, new) (NodeEdge.Start (NodeValue.codeBlock info lit)) =
        (items ++ [SlideItem.Code lit], false)) := by
  constructor
  · intro h; simp [step, h]
  · intro h; simp [step, h]

/-- Witness for `codeblock_qr_dispatch`: a `qrcode`-tagged block with
literal `" hi "` becomes `QR "hi"` (trimmed), and a `rust`-tagged block
with the same literal becomes `Code " hi "` (untrimmed). -/
theorem codeblock_qr_dispatch_witness :
    step ([], true) (NodeEdge.Start (NodeValue.codeBlock "qrcode" " hi ")) =
      ([SlideItem.QR "hi"], false)
  ∧ step ([], true) (NodeEdge.Start (NodeValue.codeBlock "rust" " hi ")) =
      ([SlideItem.Code " hi "], false) := by
  constructor
  · rw [(codeblock_qr_dispatch [] true "qrcode" " hi ").1 rfl]
    decide
  · exact (codeblock_qr_dispatch [] true "rust" " hi ").2 (by decide)

/-! ## Claim C6 -/

/-- C6: folding an inline-code fragment into an open `Heading`, `Paragraph`,
or the last item of an open `Bullets` block appends its literal wrapped in
exactly one backtick on each side, while folding a plain inline-text
fragment appends it with no backticks added. -/
theorem inline_fold_backticks (pre : List SlideItem) (lit t : String)
    (bs : List String) :
    ((step (pre ++ [SlideItem.Heading t], false)
        (NodeEdge.Start (NodeValue.code lit))).1
      = pre ++ [SlideItem.Heading (t ++ ("`" ++ lit ++ "`"))]
    ∧ (step (pre ++ [SlideItem.Heading t], false)
        (NodeEdge.Start (NodeValue.text lit))).1
      = pre ++ [SlideItem.Heading (t ++ lit)])
  ∧ ((step (pre ++ [SlideItem.Paragraph t], false)
        (NodeEdge.Start (NodeValue.code lit))).1
      = pre ++ [SlideItem.Paragraph (t ++ ("`" ++ lit ++ "`"))]
    ∧ (step (pre ++ [SlideItem.Paragraph t], false)
        (NodeEdge.Start (NodeValue.text lit))).1
      = pre ++ [SlideItem.Paragraph (t ++ lit)])
  ∧ ((step (pre ++ [SlideItem.Bullets (bs ++ [t])], false)
        (NodeEdge.Start (NodeValue.code lit))).1
      = pre ++ [SlideItem.Bullets (bs ++ [t ++ ("`" ++ lit ++ "`")])]
    ∧ (step (pre ++ [SlideItem.Bullets (bs ++ [t])], false)
        (NodeEdge.Start (NodeValue.text lit))).1
      = pre ++ [SlideItem.Bullets (bs ++ [t ++ lit])]) := by
  refine ⟨⟨?_, ?_⟩, ⟨?_, ?_⟩, ⟨?_, ?_⟩⟩ <;>
    simp [step, modifyLast_append_singleton, appendInline, backtickWrap]

/-! ## Claim C8 -/

/-- C8: a list-`Item` event leaves the block sequence unchanged (and raises
no error) whenever the most recently pushed block is not a `Bullets` list,
or no block has been pushed yet. -/
theorem item_event_noop (items : List SlideItem) (new : Bool)
    (h : lastIsBullets items = false) :
    (step (items, new) (NodeEdge.Start NodeValue.item)).1 = items := by
  simpa [step] using modifyLast_itemAppend_eq items h

/-- Witness for `item_event_noop`: an `Item` event arriving while the last
block is a `Heading` leaves the block list unchanged. -/
theorem item_event_noop_witness :
    (step ([SlideItem.Heading "T"], true) (NodeEdge.Start NodeValue.item)).1
      = [SlideItem.Heading "T"] :=
  item_event_noop [SlideItem.Heading "T"] true (by decide)

/-! ## Claim C3 -/

/-- On a non-empty collection, any sequence of navigation commands keeps the
cursor strictly below the slide count and never fails. -/
theorem applyOps_inv (ops : List NavOp) (s : Slides)
    (h : s.current_idx < s.slides.length) :
    ∃ t : Slides, applyOps s ops = some t
      ∧ t.current_idx < t.slides.length ∧ t.slides = s.slides := by
  induction ops generalizing s with
  | nil => exact ⟨s, rfl, h, rfl⟩
  | cons op ops ih =>
      cases op with
      | next =>
          have hlen : ¬ s.slides.length = 0 := by omega
          have h2 : min (s.current_idx + 1) (s.slides.length - 1) <
              s.slides.length := by omega
          obtain ⟨t, ht, h3, h4⟩ :=
            ih { s with current_idx := min (s.current_idx + 1) (s.slides.length - 1) } h2
          exact ⟨t, by simpa [applyOps, navApply, Slides.next, hlen] using ht, h3, h4⟩
      | prev =>
          have h2 : s.current_idx - 1 < s.slides.length := by omega
          obtain ⟨t, ht, h3, h4⟩ := ih { s with current_idx := s.current_idx - 1 } h2
          exact ⟨t, by simpa [applyOps, navApply, Slides.prev] using ht, h3, h4⟩

/-- C3: for a collection with at least one slide and cursor `0`, `prev`
leaves the cursor at `0`; for any non-empty collection with cursor at
`len - 1`, `next` is a no-op; and every finite sequence of `next`/`prev`
commands keeps the cursor satisfying `0 ≤ cursor < len`. -/
theorem slides_cursor_clamped (s t : Slides) (ops : List NavOp)
    (hne : s.slides ≠ []) (h0 : s.current_idx = 0)
    (ht : t.slides ≠ []) (hlast : t.current_idx = t.slides.length - 1) :
    s.prev.current_idx = 0
  ∧ t.next = some t
  ∧ cursorInBounds (applyOps s ops) = true := by
  refine ⟨?_, ?_, ?_⟩
  · simp [Slides.prev, h0]
  · have hlen : ¬ t.slides.length = 0 := by
      simpa [List.length_eq_zero] using ht
    have hm : min (t.current_idx + 1) (t.slides.length - 1) = t.current_idx := by
      omega
    simp only [Slides.next]
    rw [if_neg hlen, hm]
  · have hlen : s.slides.length ≠ 0 := by
      simpa [List.length_eq_zero] using hne
    obtain ⟨u, hu, h2, _⟩ := applyOps_inv ops s (by omega)
    simp [cursorInBounds, hu, h2]

/-- Witness for `slides_cursor_clamped`: a one-slide collection at cursor
`0` (which is also `len - 1`), driven by the command sequence
`next; next; prev`. -/
theorem slides_cursor_clamped_witness :
    (Slides.mk "demo" [Slide.mk "demo" []] 0).prev.current_idx = 0
  ∧ (Slides.mk "demo" [Slide.mk "demo" []] 0).next =
      some (Slides.mk "demo" [Slide.mk "demo" []] 0)
  ∧ cursorInBounds (applyOps (Slides.mk "demo" [Slide.mk "demo" []] 0)
      [NavOp.next, NavOp.next, NavOp.prev]) = true :=
  slides_cursor_clamped (Slides.mk "demo" [Slide.mk "demo" []] 0)
    (Slides.mk "demo" [Slide.mk "demo" []] 0)
    [NavOp.next, NavOp.next, NavOp.prev]
    (by decide) (by decide) (by decide) (by decide)

/-! ## Claim C9 -/

/-- C9: on an empty collection `next` hits the `usize` underflow in
`self.slides.len() - 1` (no defined successor state: a panic under checked
arithmetic), while `prev` and `current` are total — `prev` leaves the
cursor at `0` and `current` signals `none`. -/
theorem next_unsafe_on_empty (s : Slides) (h : s.slides = [])
    (h0 : s.current_idx = 0) :
    s.next = none
  ∧ s.prev.current_idx = 0
  ∧ s.current = none := by
  refine ⟨?_, ?_, ?_⟩
  · simp [Slides.next, h]
  · simp [Slides.prev, h0]
  · simp [Slides.current, h]

/-- Witness for `next_unsafe_on_empty` on the concrete empty collection. -/
theorem next_unsafe_on_empty_witness :
    (Slides.mk "e" [] 0).next = none
  ∧ (Slides.mk "e" [] 0).prev.current_idx = 0
  ∧ (Slides.mk "e" [] 0).current = none :=
  next_unsafe_on_empty (Slides.mk "e" [] 0) rfl rfl

/-! ## Claim C4 -/

/-- C4, refuted: with terminal setup succeeded and the document loaded, a
failure inside the display loop — here the empty-collection `current()`
error on the very first draw — propagates through `?` in `main` and the
process exits without `restore_terminal` ever being reached. -/
theorem restore_skipped_on_loop_error :
    (mainFlow true true (runFirstStep (Slides.mk "t" [] 0))).terminalRestored
      = false := by
  decide

/-- C4 (amended): the terminal is restored exactly on the clean path, when
terminal setup, document load, and the display loop all succeed; any fatal
error — wherever it originated, including after terminal setup succeeded —
propagates through `?` and the process exits without restoring the
terminal. -/
theorem terminal_restored_iff_all_ok (setupOk mkslidesOk runOk : Bool) :
    ((mainFlow setupOk mkslidesOk runOk).terminalRestored = true ↔
      setupOk = true ∧ mkslidesOk = true ∧ runOk = true)
  ∧ ((mainFlow setupOk mkslidesOk runOk).cleanExit = true ↔
      setupOk = true ∧ mkslidesOk = true ∧ runOk = true) := by
  cases setupOk <;> cases mkslidesOk <;> cases runOk <;> simp [mainFlow]

/-! ## Claim C7 -/

/-- A 45-character line, and a three-line paragraph of such lines: the
spec's layout example. -/
def line45 : String := String.mk (List.replicate 45 'a')

/-- The example paragraph source: 3 lines, max line length 45. -/
def para45 : String := line45 ++ "\n" ++ line45 ++ "\n" ++ line45

/-- The example origin rectangle at vertical offset `y = 4`. -/
def rect45 : Rect := { x := 4, y := 4, width := 72, height := 36 }

/-- C7: a `Paragraph` drawn at offset `y` occupies a rectangle of height
`maxLineLength / 80 + 2` and width `maxLineLength` if that height is `1`
and `80` otherwise (line metrics taken before wrapping), and the render
returns the next offset `y + lineCount + 2`. -/
theorem paragraph_layout (src : String) (rect : Rect)
    (hh : paraMaxLen src / 80 + 2 < 65536)
    (hn : paraLineCount src + 2 + rect.y < 65536) :
    (paragraphRender src rect).1.height = paraMaxLen src / 80 + 2
  ∧ (paragraphRender src rect).1.width =
      (if paraMaxLen src / 80 + 2 = 1 then paraMaxLen src else 80)
  ∧ (paragraphRender src rect).2 = rect.y + paraLineCount src + 2 := by
  have h1 : ¬ (paraMaxLen src / 80 + 2 = 1) := by omega
  refine ⟨?_, ?_, ?_⟩
  · simp only [paragraphRender]
    omega
  · simp only [paragraphRender, h1, if_false]
  · simp only [paragraphRender]
    omega

/-- Witness for `paragraph_layout`: the spec's layout example — a 3-line
paragraph of max line length 45 placed at `y = 4` gets an 80-wide, 2-high
rectangle and returns next offset 9. -/
theorem paragraph_layout_witness :
    (paragraphRender para45 rect45).1.height = 2
  ∧ (paragraphRender para45 rect45).1.width = 80
  ∧ (paragraphRender para45 rect45).2 = 9 := by
  obtain ⟨h1, h2, h3⟩ := paragraph_layout para45 rect45 (by decide) (by decide)
  exact ⟨h1.trans (by decide), h2.trans (by decide), h3.trans (by decide)⟩

/-! ## Claim C10 -/

/-- C10: the computed paragraph height `maxLineLength / 80 + 2` is always at
least 2, so the `height == 1` width branch is dead and the drawn rectangle's
width is exactly 80 for every paragraph source. -/
theorem paragraph_width_branch_dead (src : String) (rect : Rect) :
    2 ≤ paraMaxLen src / 80 + 2
  ∧ paraMaxLen src / 80 + 2 ≠ 1
  ∧ (paragraphRender src rect).1.width = 80 := by
  have h1 : ¬ (paraMaxLen src / 80 + 2 = 1) := by omega
  refine ⟨by omega, h1, ?_⟩
  simp only [paragraphRender, h1, if_false]

end Mkslides
